import Mathlib

/-!
# Tunnel session orchestration (`main.go`)

A shallow embedding of `func main` of `main.go`.  The program talks to the
outside world only through external commands (`kubectl`, `docker`, `socat`)
and through `fmt` printing.  The embedding makes both explicit:

* an `Env` fixes the outcome of every external call the program can make;
* `main fuel env` is the sequence of calls and prints the program performs,
  in order, deferred functions included.

The readiness loop `Wait:` has no bound in the source, so the embedding takes
a `fuel` argument counting loop iterations; `none` means the fuel ran out
while the loop was still polling.
-/

namespace Telepresence

/-! ## Data model -/

/-- A Go `error` value: `none` is `nil`, `some msg` an error with that message. -/
abbrev GoError := Option String

/-- The part `Items[i].Metadata` of `Pod` the program reads. -/
structure PodMetadata where
  Name : String := ""
deriving DecidableEq, Repr

/-- The part `Items[i].Status` of `Pod` the program reads. -/
structure PodStatus where
  Phase : String := ""
deriving DecidableEq, Repr

/-- One element of `Pod.Items`, restricted to the fields `main` reads
(`Metadata.Name` and `Status.Phase`). -/
structure PodItem where
  Metadata : PodMetadata := {}
  Status : PodStatus := {}
deriving DecidableEq, Repr

/-- The struct `Pod`, restricted to `Items`. The value `{}` is the Go zero value
`Pod{}`. -/
structure Pod where
  Items : List PodItem := []
deriving DecidableEq, Repr

/-- The struct `DockerNetwork`. -/
structure DockerNetwork where
  Subnet : String := ""
  Gateway : String := ""
deriving DecidableEq, Repr

def SSH_PORT : String := "9876"

def TELE_IMAGE : String := "datawire/telepresence-local:0.58"

/-! ## JSON documents and `json.Unmarshal`

`encoding/json` is a library, not part of the program.  A JSON document is
represented by what it says about the members the program reads.  A member that
is absent from the document (or, for a string or a struct, `null`) is `none`:
`json.Unmarshal` leaves the corresponding Go field as it was. -/

/-- What one element of the `items` array says: the string member
`metadata.name` and the string member `status.phase`, when present. -/
structure ItemDoc where
  name : Option String
  phase : Option String
deriving DecidableEq, Repr

/-- What a pod-list document says: the `items` array when the member is present
(`some []` for an empty array or `null`), `none` when the document has no
`items` member. -/
structure PodDoc where
  items : Option (List ItemDoc)
deriving DecidableEq, Repr

/-- Decoding one array element into the slice element `old` that is already
there: members present overwrite, members absent keep the old field. -/
def unmarshalItem (d : ItemDoc) (old : PodItem) : PodItem :=
  { Metadata := { Name := d.name.getD old.Metadata.Name },
    Status := { Phase := d.phase.getD old.Status.Phase } }

/-- Decoding a JSON array into an existing slice: element `i` is decoded into the
existing element `i` when there is one and into a zero value otherwise; the
resulting length is the length of the array. (The loop decodes again only
when the slice holds exactly one element, so the backing array never holds
older elements beyond the length.) -/
def unmarshalItems : List ItemDoc → List PodItem → List PodItem
  | [], _ => []
  | d :: ds, [] => unmarshalItem d {} :: unmarshalItems ds []
  | d :: ds, o :: os => unmarshalItem d o :: unmarshalItems ds os

/-- The effect of a successful `json.Unmarshal(out, pod)` on `*pod`. -/
def unmarshalPod (d : PodDoc) (pod : Pod) : Pod :=
  match d.items with
  | none => pod
  | some ds => { Items := unmarshalItems ds pod.Items }

/-! ## Outcomes of the external calls -/

/-- Outcome of `kubectl get pod ... -o json` followed by `json.Unmarshal`. -/
inductive PodReply where
  /-- `Output()` returned a non-nil error. -/
  | fail (err : String)
  /-- `Output()` succeeded and `json.Unmarshal` returned a non-nil error. -/
  | malformed (err : String)
  /-- `Output()` succeeded with a document that decodes without error. -/
  | doc (d : PodDoc)
deriving DecidableEq, Repr

/-- Outcome of `docker network inspect ...` followed by `json.Unmarshal` into a
fresh `[]DockerNetwork{}`. -/
inductive NetReply where
  | fail (err : String)
  | malformed (err : String)
  | nets (networks : List DockerNetwork)
deriving DecidableEq, Repr

/-- The outcome of every external call `main` can make. -/
structure Env where
  /-- `kubectl config current-context`: the output, or the error. -/
  currentContext : Except String String
  /-- `kubectl cluster-info`. -/
  clusterInfo : GoError
  /-- `kubectl apply -f tele.yaml`. -/
  apply : GoError
  /-- The `i`-th execution (from 0) of the pod query of the `Wait` loop. -/
  getPod : Nat → PodReply
  /-- `pfCmd.Start()`. -/
  pfStart : GoError
  /-- The `j`-th call (from 0) of `pfCmd.Process.Kill()`. -/
  pfKill : Nat → GoError
  /-- `docker network inspect bridge ...`. -/
  inspect : NetReply
  /-- `socatCmd.Start()`. -/
  socatStart : GoError
  /-- `kubectl exec <pod> env`. -/
  execEnv : GoError
  /-- `kubectl delete -f tele.yaml`. -/
  delete : GoError

/-! ## Observable events -/

/-- An argument of a `fmt.Printf` or `fmt.Println` call. -/
inductive Arg where
  | str (s : String)
  | int (n : Nat)
  | err (e : String)
deriving DecidableEq, Repr

/-- What the program does, as seen from outside. -/
inductive Event where
  /-- `exec.Command(argv...).Output()`: run the command to completion. -/
  | output (argv : List String)
  /-- `cmd.Start()` for `cmd = exec.Command(argv...)`. -/
  | start (argv : List String)
  /-- `cmd.Process.Kill()` for `cmd = exec.Command(argv...)`. -/
  | kill (argv : List String)
  /-- `fmt.Printf(format, args...)`. -/
  | printf (format : String) (args : List Arg)
  /-- `fmt.Println(args...)`. -/
  | println (args : List Arg)
deriving DecidableEq, Repr

/-! ## The commands -/

def currentContextCmd : List String := ["kubectl", "config", "current-context"]

def clusterInfoCmd : List String := ["kubectl", "cluster-info"]

def applyCmd : List String := ["kubectl", "apply", "-f", "tele.yaml"]

def deleteCmd : List String := ["kubectl", "delete", "-f", "tele.yaml"]

def getPodCmd : List String :=
  ["kubectl", "get", "pod", "-l", "name=myservice", "-o", "json"]

/-- The argument vector of `pfCmd` (line 172). The second argument ends in the
character U+0027, as in the source. -/
def pfCmd (name : String) : List String :=
  ["kubectl", "port-forward\x27", name, SSH_PORT ++ ":8022"]

def inspectCmd : List String :=
  ["docker", "network", "inspect", "bridge", "--format=\x7b\x7bjson .IPAM.Config\x7d\x7d"]

/-- The argument vector of `socatCmd` (lines 203-207); the two `fmt.Sprintf`
calls only splice strings with `%s`. -/
def socatCmd (dockerIP : String) : List String :=
  ["socat",
   "TCP4-LISTEN:" ++ SSH_PORT ++ ",bind=" ++ dockerIP ++ ",reuseaddr,fork",
   "TCP4:127.0.0.1:" ++ SSH_PORT]

def execCmd (name : String) : List String := ["kubectl", "exec", name, "env"]

/-! ## `strings.TrimSpace` -/

/-- The predicate `unicode.IsSpace`. -/
def isSpace (c : Char) : Bool :=
  let n := c.toNat
  n = 0x09 || n = 0x0A || n = 0x0B || n = 0x0C || n = 0x0D || n = 0x20 ||
  n = 0x85 || n = 0xA0 || n = 0x1680 || (0x2000 ≤ n && n ≤ 0x200A) ||
  n = 0x2028 || n = 0x2029 || n = 0x202F || n = 0x205F || n = 0x3000

/-- The function `strings.TrimSpace`. -/
def TrimSpace (s : String) : String :=
  String.mk ((s.data.dropWhile isSpace).reverse.dropWhile isSpace).reverse

/-! ## Deferred functions -/

/-- The three function literals `main` defers, with the variable each one
captures. -/
inductive Deferred where
  /-- Lines 132-139. -/
  | deleteDeployment
  /-- Lines 177-183; captures `pfCmd`. -/
  | closePortForward (pfCmd : List String)
  /-- Lines 213-219; the body refers to `pfCmd`. -/
  | closeSocat (pfCmd : List String)
deriving DecidableEq, Repr

/-- The deferred function of lines 132-139. -/
def deleteDeployment (env : Env) : List Event :=
  [Event.println [Arg.str "Deleting deployment"], Event.output deleteCmd] ++
    (match env.delete with
     | some err => [Event.printf "Deleting deployment failed: %s\n" [Arg.err err]]
     | none => [Event.println [Arg.str "Exited succesfully"]])

/-- The deferred function of lines 177-183, when `kills` calls of
`pfCmd.Process.Kill()` were made before. -/
def closePortForward (env : Env) (pfCmd : List String) (kills : Nat) : List Event :=
  Event.kill pfCmd ::
    (match env.pfKill kills with
     | some err => [Event.println [Arg.str "Could not close port forward:", Arg.err err]]
     | none => [Event.println [Arg.str "Port forward closed"]])

/-- The deferred function of lines 213-219, when `kills` calls of
`pfCmd.Process.Kill()` were made before. The receiver of `Kill` is
`pfCmd.Process`, as in the source. -/
def closeSocat (env : Env) (pfCmd : List String) (kills : Nat) : List Event :=
  Event.kill pfCmd ::
    (match env.pfKill kills with
     | some err => [Event.println [Arg.str "Could not close socat:", Arg.err err]]
     | none => [Event.println [Arg.str "socat closed closed"]])

/-- Running one deferred function. `kills` counts the calls of
`pfCmd.Process.Kill()` made so far; the result is the events of the body and
the updated count. -/
def runDeferred (env : Env) (kills : Nat) : Deferred → List Event × Nat
  | .deleteDeployment => (deleteDeployment env, kills)
  | .closePortForward pf => (closePortForward env pf kills, kills + 1)
  | .closeSocat pf => (closeSocat env pf kills, kills + 1)

/-- Function exit: the deferred functions run one after the other, the head of
the list (the most recently deferred one) first. -/
def runDefers (env : Env) : Nat → List Deferred → List Event
  | _, [] => []
  | kills, d :: ds =>
    (runDeferred env kills d).1 ++ runDefers env (runDeferred env kills d).2 ds

/-! ## `main` -/

/-- The state of a run of the body of `main` when it returns: the events so far
and the stack of deferred functions, most recent first. -/
structure Run where
  trace : List Event
  defers : List Deferred
deriving DecidableEq, Repr

/-- The loop `Wait:` (lines 143-170), entered for the `i`-th time with `*pod`
equal to `pod`. The result is the events of the remaining iterations together
with `some pod` when the loop is left by `break Wait` and `none` when `main`
returns from inside the loop; the outer `none` is fuel exhaustion. The element
`pod.Items[0]` is read only after the length check, so the index is in
range. -/
def Wait : Nat → Env → Nat → Pod → Option (List Event × Option Pod)
  | 0, _, _, _ => none
  | fuel + 1, env, i, pod =>
    match env.getPod i with
    | .fail err =>
      some ([Event.output getPodCmd,
             Event.printf "Could not get pod info: %s\n" [Arg.err err]], none)
    | .malformed err =>
      some ([Event.output getPodCmd, Event.println [Arg.err err]], none)
    | .doc d =>
      let pod := unmarshalPod d pod
      if pod.Items.length ≠ 1 then
        some ([Event.output getPodCmd,
               Event.printf "Invalid amount of pods %d, expecting 1\n"
                 [Arg.int pod.Items.length]], none)
      else
        let item := pod.Items.headD {}
        if item.Status.Phase = "Running" then
          some ([Event.output getPodCmd,
                 Event.printf "Pod %s is up and running\n" [Arg.str item.Metadata.Name]],
                some pod)
        else if item.Status.Phase = "Pending" then
          (Wait fuel env (i + 1) pod).map fun r => (Event.output getPodCmd :: r.1, r.2)
        else
          some ([Event.output getPodCmd,
                 Event.printf "Pod in unexpected state %q\n" [Arg.str item.Status.Phase]],
                none)

/-- Lines 185-225: from the network inspection to the end of the body. On entry
both `deleteDeployment` and `closePortForward` are deferred. -/
def afterForward (env : Env) (name : String) : Run :=
  let defers := [Deferred.closePortForward (pfCmd name), Deferred.deleteDeployment]
  match env.inspect with
  | .fail err =>
    ⟨[Event.output inspectCmd,
      Event.printf "Could not get ip for docker0: %s\n" [Arg.err err]], defers⟩
  | .malformed err =>
    ⟨[Event.output inspectCmd, Event.println [Arg.err err]], defers⟩
  | .nets networks =>
    if networks.length = 0 then
      ⟨[Event.output inspectCmd,
        Event.println [Arg.str "Could not find ip for docker0"]], defers⟩
    else
      let dockerIP := (networks.headD {}).Gateway
      let t := [Event.output inspectCmd,
                Event.println [Arg.str "IP for docker0:", Arg.str dockerIP],
                Event.start (socatCmd dockerIP)]
      match env.socatStart with
      | some err => ⟨t ++ [Event.printf "Could not start socat: %s\n" [Arg.err err]], defers⟩
      | none =>
        let defers := Deferred.closeSocat (pfCmd name) :: defers
        match env.execEnv with
        | some err =>
          ⟨t ++ [Event.output (execCmd name),
                 Event.printf "Could not get env variables: %s\n" [Arg.err err]], defers⟩
        | none => ⟨t ++ [Event.output (execCmd name)], defers⟩

/-- Lines 172-225: from the start of the port forward to the end of the body. On
entry `deleteDeployment` is deferred and the loop has left `pod` behind. -/
def afterReady (env : Env) (pod : Pod) : Run :=
  let name := (pod.Items.headD {}).Metadata.Name
  match env.pfStart with
  | some err =>
    ⟨[Event.start (pfCmd name), Event.printf "Could not port forward: %s\n" [Arg.err err]],
     [Deferred.deleteDeployment]⟩
  | none =>
    let r := afterForward env name
    ⟨Event.start (pfCmd name) :: r.trace, r.defers⟩

/-- Lines 141-225: from `pod := &Pod{}` to the end of the body. On entry
`deleteDeployment` is deferred. -/
def afterApply (fuel : Nat) (env : Env) : Option Run :=
  match Wait fuel env 0 {} with
  | none => none
  | some (t, none) => some ⟨t, [Deferred.deleteDeployment]⟩
  | some (t, some pod) =>
    let r := afterReady env pod
    some ⟨t ++ r.trace, r.defers⟩

/-- The body of `main` up to the point where it returns, without the deferred
functions. -/
def mainBody (fuel : Nat) (env : Env) : Option Run :=
  match env.currentContext with
  | .error err =>
    some ⟨[Event.output currentContextCmd,
           Event.printf "Could not get current context for kubectl: %s\n" [Arg.err err]], []⟩
  | .ok out =>
    let context := TrimSpace out
    let t0 := [Event.output currentContextCmd,
               Event.println [Arg.str "Using context:", Arg.str context]]
    match env.clusterInfo with
    | some err =>
      some ⟨t0 ++ [Event.output clusterInfoCmd,
                   Event.printf "Could not connect to cluster: %s\n" [Arg.err err]], []⟩
    | none =>
      let t1 := t0 ++ [Event.output clusterInfoCmd,
                       Event.println [Arg.str "Deploying..."], Event.output applyCmd]
      match env.apply with
      | some err =>
        some ⟨t1 ++ [Event.printf "Could not deploy tele image: %s\n" [Arg.err err]], []⟩
      | none =>
        (afterApply fuel env).map fun r => ⟨t1 ++ r.trace, r.defers⟩

/-- The function `main`: the events of the body followed by the deferred
functions, run in last-in-first-out order. `none` when `fuel` iterations of the
`Wait` loop were not enough. -/
def main (fuel : Nat) (env : Env) : Option (List Event) :=
  (mainBody fuel env).map fun r => r.trace ++ runDefers env 0 r.defers

/-! ## Notions used to state the properties -/

/-- The events of lines 113-127 when the context query (with output `out`),
`cluster-info` and `apply` are all executed. -/
def deployTrace (out : String) : List Event :=
  [Event.output currentContextCmd,
   Event.println [Arg.str "Using context:", Arg.str (TrimSpace out)],
   Event.output clusterInfoCmd,
   Event.println [Arg.str "Deploying..."],
   Event.output applyCmd]

/-- The value of `*pod` when the `Wait` loop is entered for the `i`-th time:
the zero value decoded into by each of the documents of the earlier
iterations. -/
def podAt (env : Env) : Nat → Pod
  | 0 => {}
  | i + 1 =>
    match env.getPod i with
    | .doc d => unmarshalPod d (podAt env i)
    | _ => podAt env i

/-- Iteration `i` of the `Wait` loop reaches `continue`: the query and the
decoding succeed, `len(pod.Items)` is 1 and the phase read is `Pending`. -/
def continuesAt (env : Env) (i : Nat) : Bool :=
  match env.getPod i with
  | .doc d =>
    let pod := unmarshalPod d (podAt env i)
    decide (pod.Items.length = 1) && decide ((pod.Items.headD {}).Status.Phase = "Pending")
  | _ => false

/-- Iteration `i` of the `Wait` loop reaches `break Wait`: the query and the
decoding succeed, `len(pod.Items)` is 1 and the phase read is `Running`. -/
def readyAt (env : Env) (i : Nat) : Bool :=
  match env.getPod i with
  | .doc d =>
    let pod := unmarshalPod d (podAt env i)
    decide (pod.Items.length = 1) && decide ((pod.Items.headD {}).Status.Phase = "Running")
  | _ => false

/-- The value of `pod.Items[0].Metadata.Name` after iteration `i`. -/
def podName (env : Env) (i : Nat) : String :=
  ((podAt env (i + 1)).Items.headD {}).Metadata.Name

/-- External commands, as opposed to prints. -/
def Event.isCommand : Event → Bool
  | .output _ => true
  | .start _ => true
  | .kill _ => true
  | _ => false

/-- The release actions: killing a process and deleting the deployment. -/
def Event.isRelease : Event → Bool
  | .kill _ => true
  | .output argv => decide (argv = deleteCmd)
  | _ => false

/-- The release action a deferred function performs. -/
def Deferred.action : Deferred → Event
  | .deleteDeployment => Event.output deleteCmd
  | .closePortForward pf => Event.kill pf
  | .closeSocat pf => Event.kill pf

/-- The apply command was run in `setup` and succeeded. -/
def applied (env : Env) (setup : List Event) : Prop :=
  Event.output applyCmd ∈ setup ∧ env.apply = none

/-- The port forward to the workload `name` was started in `setup` and the start
succeeded. -/
def forwarded (env : Env) (setup : List Event) (name : String) : Prop :=
  Event.start (pfCmd name) ∈ setup ∧ env.pfStart = none

/-- The relay on the address `dockerIP` was started in `setup` and the start
succeeded. -/
def relayed (env : Env) (setup : List Event) (dockerIP : String) : Prop :=
  Event.start (socatCmd dockerIP) ∈ setup ∧ env.socatStart = none

/-- The environment `env` with the reply to the `k`-th pod query replaced. -/
def Env.withPod (env : Env) (k : Nat) (r : PodReply) : Env :=
  { env with getPod := fun i => if i = k then r else env.getPod i }

/-! ## Sample environments -/

/-- A pod-list document with exactly one workload, name and phase given. -/
def onePod (name phase : String) : PodReply :=
  .doc ⟨some [⟨some name, some phase⟩]⟩

/-- The end-to-end scenario: every command succeeds, the workload `tele` is
`Pending`, `Pending`, `Running`, and the bridge gateway is `172.17.0.1`. -/
def scenarioEnv : Env where
  currentContext := .ok "minikube\n"
  clusterInfo := none
  apply := none
  getPod := fun i => if i < 2 then onePod "tele" "Pending" else onePod "tele" "Running"
  pfStart := none
  pfKill := fun _ => none
  inspect := .nets [⟨"172.17.0.0/16", "172.17.0.1"⟩]
  socatStart := none
  execEnv := none
  delete := none

/-- The workload is `Pending` once and then `Failed`. -/
def failedEnv : Env :=
  { scenarioEnv with
    getPod := fun i => if i < 1 then onePod "tele" "Pending" else onePod "tele" "Failed" }

/-- The selector matches one `Pending` workload at first and then two workloads,
the first of them `Running`. -/
def twoPodsEnv : Env :=
  { scenarioEnv with
    getPod := fun i =>
      if i < 1 then onePod "tele" "Pending"
      else .doc ⟨some [⟨some "tele", some "Running"⟩, ⟨some "tele-2", some "Pending"⟩]⟩ }

/-- The end-to-end scenario with an inspector that reports no network. -/
def noNetworkEnv : Env :=
  { scenarioEnv with inspect := .nets [] }

/-- The end-to-end scenario with an inspector that reports two networks. -/
def twoNetworksEnv : Env :=
  { scenarioEnv with
    inspect := .nets [⟨"172.17.0.0/16", "172.17.0.1"⟩, ⟨"10.0.0.0/8", "10.0.0.1"⟩] }

/-- The end-to-end scenario in which every `Kill` and the delete report an
error. -/
def killFailsEnv : Env :=
  { scenarioEnv with
    pfKill := fun _ => some "os: process already finished"
    delete := some "exit status 1" }

/-- The first response holds one `Pending` workload, the second response is a
JSON object without an `items` member, and the third query fails. -/
def staleEnv : Env :=
  { scenarioEnv with
    getPod := fun i =>
      if i = 0 then onePod "tele" "Pending"
      else if i = 1 then .doc ⟨none⟩
      else .fail "exit status 1" }

/-- The first response holds one `Pending` workload, the second response is a
JSON object without an `items` member, and every later response holds one
`Running` workload; everything else is as in the end-to-end scenario. -/
def missingListEnv : Env :=
  { scenarioEnv with
    getPod := fun i =>
      if i = 0 then onePod "tele" "Pending"
      else if i = 1 then .doc ⟨none⟩
      else onePod "tele" "Running" }

/-! ## The readiness loop -/

theorem continuesAt_iff (env : Env) (i : Nat) :
    continuesAt env i = true ↔
      ∃ d, env.getPod i = .doc d ∧ (unmarshalPod d (podAt env i)).Items.length = 1 ∧
        ((unmarshalPod d (podAt env i)).Items.headD {}).Status.Phase = "Pending" := by
  unfold continuesAt
  cases h : env.getPod i <;> simp

theorem podAt_succ_doc (env : Env) (i : Nat) (d : PodDoc) (h : env.getPod i = .doc d) :
    podAt env (i + 1) = unmarshalPod d (podAt env i) := by
  simp [podAt, h]

theorem Wait_continue (env : Env) (fuel i : Nat) (pod : Pod) (d : PodDoc)
    (h : env.getPod i = .doc d) (hlen : (unmarshalPod d pod).Items.length = 1)
    (hph : ((unmarshalPod d pod).Items.headD {}).Status.Phase = "Pending") :
    Wait (fuel + 1) env i pod =
      (Wait fuel env (i + 1) (unmarshalPod d pod)).map
        fun r => (Event.output getPodCmd :: r.1, r.2) := by
  rw [Wait]
  simp only [h, hlen, hph, ne_eq, not_true_eq_false, if_false, if_true]
  rw [if_neg (by decide)]

/-- When iterations `i, ..., i + k - 1` all reach `continue`, the loop performs
`k` queries and then proceeds as from iteration `i + k`. -/
theorem Wait_reach (env : Env) (k : Nat) :
    ∀ i fuel, (∀ j, j < k → continuesAt env (i + j) = true) →
      Wait (k + fuel) env i (podAt env i) =
        (Wait fuel env (i + k) (podAt env (i + k))).map
          fun r => (List.replicate k (Event.output getPodCmd) ++ r.1, r.2) := by
  induction k with
  | zero => intro i fuel _; simp
  | succ k ih =>
    intro i fuel h
    obtain ⟨d, hd, hlen, hph⟩ := (continuesAt_iff env i).1 (by simpa using h 0 (Nat.succ_pos k))
    have hfuel : k + 1 + fuel = (k + fuel) + 1 := by omega
    rw [hfuel, Wait_continue env (k + fuel) i (podAt env i) d hd hlen hph,
      ← podAt_succ_doc env i d hd, ih (i + 1) fuel ?_]
    · have hik : i + 1 + k = i + (k + 1) := by omega
      rw [hik, Option.map_map]
      congr 1
    · intro j hj
      have := h (j + 1) (by omega)
      have e : i + 1 + j = i + (j + 1) := by omega
      rw [e]; exact this

theorem readyAt_iff (env : Env) (i : Nat) :
    readyAt env i = true ↔
      ∃ d, env.getPod i = .doc d ∧ (unmarshalPod d (podAt env i)).Items.length = 1 ∧
        ((unmarshalPod d (podAt env i)).Items.headD {}).Status.Phase = "Running" := by
  unfold readyAt
  cases h : env.getPod i <;> simp

theorem unmarshalItems_length (ds : List ItemDoc) :
    ∀ os, (unmarshalItems ds os).length = ds.length := by
  induction ds with
  | nil => intro os; simp [unmarshalItems]
  | cons d ds ih => intro os; cases os <;> simp [unmarshalItems, ih]

theorem Wait_running (env : Env) (fuel i : Nat) (pod : Pod) (d : PodDoc)
    (h : env.getPod i = .doc d) (hlen : (unmarshalPod d pod).Items.length = 1)
    (hph : ((unmarshalPod d pod).Items.headD {}).Status.Phase = "Running") :
    Wait (fuel + 1) env i pod =
      some ([Event.output getPodCmd,
             Event.printf "Pod %s is up and running\n"
               [Arg.str ((unmarshalPod d pod).Items.headD {}).Metadata.Name]],
            some (unmarshalPod d pod)) := by
  rw [Wait]
  simp only [h, hlen, hph, ne_eq, not_true_eq_false, if_false, if_true]

theorem Wait_count (env : Env) (fuel i : Nat) (pod : Pod) (l : List ItemDoc)
    (h : env.getPod i = .doc ⟨some l⟩) (hlen : l.length ≠ 1) :
    Wait (fuel + 1) env i pod =
      some ([Event.output getPodCmd,
             Event.printf "Invalid amount of pods %d, expecting 1\n" [Arg.int l.length]],
            none) := by
  rw [Wait]
  simp only [h, unmarshalPod, unmarshalItems_length, ne_eq, hlen, not_false_eq_true, if_true]

theorem Wait_unexpected (env : Env) (fuel i : Nat) (pod : Pod) (name : Option String)
    (phase : String) (h : env.getPod i = .doc ⟨some [⟨name, some phase⟩]⟩)
    (hR : phase ≠ "Running") (hP : phase ≠ "Pending") :
    Wait (fuel + 1) env i pod =
      some ([Event.output getPodCmd,
             Event.printf "Pod in unexpected state %q\n" [Arg.str phase]], none) := by
  rw [Wait]
  cases hp : pod.Items <;>
    simp [h, unmarshalPod, unmarshalItems, unmarshalItem, hp, hR, hP]

/-- The loop from its first iteration, when iterations `0, ..., k - 1` reach
`continue`. -/
theorem Wait_reach_zero (env : Env) (k fuel : Nat)
    (h : ∀ j, j < k → continuesAt env j = true) :
    Wait (k + fuel) env 0 {} =
      (Wait fuel env k (podAt env k)).map
        fun r => (List.replicate k (Event.output getPodCmd) ++ r.1, r.2) := by
  have := Wait_reach env k 0 fuel (by simpa using h)
  simpa [podAt] using this

/-- The loop leaves by `break Wait` at iteration `k`. -/
theorem Wait_ready (env : Env) (k fuel : Nat)
    (hreach : ∀ j, j < k → continuesAt env j = true) (hready : readyAt env k = true)
    (hfuel : k < fuel) :
    Wait fuel env 0 {} =
      some (List.replicate (k + 1) (Event.output getPodCmd) ++
              [Event.printf "Pod %s is up and running\n" [Arg.str (podName env k)]],
            some (podAt env (k + 1))) := by
  obtain ⟨f, rfl⟩ : ∃ f, fuel = k + (f + 1) := ⟨fuel - k - 1, by omega⟩
  obtain ⟨d, hd, hlen, hph⟩ := (readyAt_iff env k).1 hready
  rw [Wait_reach_zero env k (f + 1) hreach, Wait_running env f k _ d hd hlen hph,
    podName, podAt_succ_doc env k d hd]
  simp [List.replicate_succ']

/-! ## From the loop to `main` -/

theorem main_loop_abort (env : Env) (out : String) (fuel : Nat) (t : List Event)
    (hctx : env.currentContext = .ok out) (hci : env.clusterInfo = none)
    (hap : env.apply = none) (hw : Wait fuel env 0 {} = some (t, none)) :
    main fuel env = some (deployTrace out ++ t ++ deleteDeployment env) := by
  simp [main, mainBody, afterApply, hctx, hci, hap, hw, deployTrace, runDefers, runDeferred]

theorem main_loop_ready (env : Env) (out : String) (fuel : Nat) (t : List Event) (pod : Pod)
    (hctx : env.currentContext = .ok out) (hci : env.clusterInfo = none)
    (hap : env.apply = none) (hw : Wait fuel env 0 {} = some (t, some pod)) :
    main fuel env =
      some (deployTrace out ++ t ++ (afterReady env pod).trace ++
        runDefers env 0 (afterReady env pod).defers) := by
  simp [main, mainBody, afterApply, hctx, hci, hap, hw, deployTrace]

theorem main_loop_none (env : Env) (out : String) (fuel : Nat)
    (hctx : env.currentContext = .ok out) (hci : env.clusterInfo = none)
    (hap : env.apply = none) (hw : Wait fuel env 0 {} = none) :
    main fuel env = none := by
  simp [main, mainBody, afterApply, hctx, hci, hap, hw]

/-! ## No pod query outside the loop -/

theorem runDeferred_no_query (env : Env) (kills : Nat) (d : Deferred) :
    ∀ e ∈ (runDeferred env kills d).1, e ≠ Event.output getPodCmd := by
  cases d with
  | deleteDeployment =>
    simp only [runDeferred, deleteDeployment]
    cases env.delete <;> simp [getPodCmd, deleteCmd]
  | closePortForward pf =>
    simp only [runDeferred, closePortForward]
    cases env.pfKill kills <;> simp
  | closeSocat pf =>
    simp only [runDeferred, closeSocat]
    cases env.pfKill kills <;> simp

theorem runDefers_no_query (env : Env) (ds : List Deferred) :
    ∀ kills, ∀ e ∈ runDefers env kills ds, e ≠ Event.output getPodCmd := by
  induction ds with
  | nil => intro kills e he; simp [runDefers] at he
  | cons d ds ih =>
    intro kills e he
    simp only [runDefers, List.mem_append] at he
    rcases he with he | he
    · exact runDeferred_no_query env kills d e he
    · exact ih _ e he

theorem afterForward_no_query (env : Env) (name : String) :
    ∀ e ∈ (afterForward env name).trace, e ≠ Event.output getPodCmd := by
  unfold afterForward
  cases env.inspect with
  | fail err => simp [getPodCmd, inspectCmd]
  | malformed err => simp [getPodCmd, inspectCmd]
  | nets networks =>
    cases networks with
    | nil => simp [getPodCmd, inspectCmd]
    | cons n ns =>
      cases env.socatStart with
      | some err => simp [getPodCmd, inspectCmd]
      | none => cases env.execEnv <;> simp [getPodCmd, inspectCmd, execCmd]

theorem afterReady_no_query (env : Env) (pod : Pod) :
    ∀ e ∈ (afterReady env pod).trace ++ runDefers env 0 (afterReady env pod).defers,
      e ≠ Event.output getPodCmd := by
  intro e he
  rw [List.mem_append] at he
  rcases he with he | he
  · unfold afterReady at he
    cases hpf : env.pfStart with
    | some err => simp [hpf] at he; rcases he with rfl | rfl <;> simp
    | none =>
      simp only [hpf, List.mem_cons] at he
      rcases he with rfl | he
      · simp
      · exact afterForward_no_query env _ e he
  · exact runDefers_no_query env _ 0 e he

/-! ## The readiness loop seen from `main` -/

theorem podAt_withPod (env : Env) (k : Nat) (r : PodReply) :
    ∀ j, j ≤ k → podAt (env.withPod k r) j = podAt env j := by
  intro j
  induction j with
  | zero => intro _; rfl
  | succ j ih =>
    intro hj
    have hne : j ≠ k := by omega
    simp [podAt, Env.withPod, hne]
    have := ih (by omega)
    simp only [Env.withPod] at this
    rw [this]

theorem continuesAt_withPod (env : Env) (k : Nat) (r : PodReply) (j : Nat) (hj : j < k) :
    continuesAt (env.withPod k r) j = continuesAt env j := by
  have hne : j ≠ k := by omega
  have hp := podAt_withPod env k r j (by omega)
  unfold continuesAt
  rw [hp]
  simp [Env.withPod, hne]

/-- C4: a poll cycle whose response holds exactly one workload with a phase
other than `Running` and `Pending` ends the loop at once: after the `k + 1`
queries made so far `main` prints the phase and returns, and the deferred
deployment delete is the only command that follows. -/
theorem unexpected_phase_aborts (env : Env) (out : String) (k fuel : Nat)
    (name : Option String) (phase : String)
    (hctx : env.currentContext = .ok out) (hci : env.clusterInfo = none)
    (hap : env.apply = none)
    (hreach : ∀ j, j < k → continuesAt env j = true)
    (hdoc : env.getPod k = .doc ⟨some [⟨name, some phase⟩]⟩)
    (hR : phase ≠ "Running") (hP : phase ≠ "Pending") (hfuel : k < fuel) :
    main fuel env =
        some (deployTrace out ++ List.replicate (k + 1) (Event.output getPodCmd) ++
          [Event.printf "Pod in unexpected state %q\n" [Arg.str phase]] ++
          deleteDeployment env) ∧
      (deleteDeployment env).filter Event.isCommand = [Event.output deleteCmd] := by
  constructor
  · obtain ⟨f, rfl⟩ : ∃ f, fuel = k + (f + 1) := ⟨fuel - k - 1, by omega⟩
    have hw : Wait (k + (f + 1)) env 0 {} =
        some (List.replicate (k + 1) (Event.output getPodCmd) ++
          [Event.printf "Pod in unexpected state %q\n" [Arg.str phase]], none) := by
      rw [Wait_reach_zero env k (f + 1) hreach,
        Wait_unexpected env f k _ name phase hdoc hR hP]
      simp [List.replicate_succ']
    rw [main_loop_abort env out _ _ hctx hci hap hw]
    simp
  · unfold deleteDeployment
    cases env.delete <;> simp [Event.isCommand]

theorem unexpected_phase_aborts_witness :
    (∀ j, j < 1 → continuesAt failedEnv j = true) ∧
      failedEnv.getPod 1 = .doc ⟨some [⟨some "tele", some "Failed"⟩]⟩ ∧
      main 2 failedEnv =
        some (deployTrace "minikube\n" ++ List.replicate 2 (Event.output getPodCmd) ++
          [Event.printf "Pod in unexpected state %q\n" [Arg.str "Failed"]] ++
          deleteDeployment failedEnv) :=
  ⟨by decide, rfl,
    (unexpected_phase_aborts failedEnv "minikube\n" 1 2 (some "tele") "Failed" rfl rfl rfl
      (by decide) rfl (by decide) (by decide) (by decide)).1⟩

/-- A poll cycle whose response carries an `items` array of length 0 or at least
2 ends the loop at once: `main` prints the count and returns, only the deferred
deployment delete follows (no further query, no port forward), and the run is
the same for every other array of the same length, whatever names and phases
it holds. -/
theorem wrong_count_aborts (env : Env) (out : String) (k fuel : Nat) (l : List ItemDoc)
    (hctx : env.currentContext = .ok out) (hci : env.clusterInfo = none)
    (hap : env.apply = none)
    (hreach : ∀ j, j < k → continuesAt env j = true)
    (hdoc : env.getPod k = .doc ⟨some l⟩)
    (hlen : l.length ≠ 1) (hfuel : k < fuel) :
    main fuel env =
        some (deployTrace out ++ List.replicate (k + 1) (Event.output getPodCmd) ++
          [Event.printf "Invalid amount of pods %d, expecting 1\n" [Arg.int l.length]] ++
          deleteDeployment env) ∧
      ∀ l2 : List ItemDoc, l2.length = l.length →
        main fuel (env.withPod k (.doc ⟨some l2⟩)) = main fuel env := by
  have key : ∀ (env : Env) (l : List ItemDoc), env.currentContext = .ok out →
      env.clusterInfo = none → env.apply = none →
      (∀ j, j < k → continuesAt env j = true) → env.getPod k = .doc ⟨some l⟩ →
      l.length ≠ 1 →
      main fuel env =
        some (deployTrace out ++ List.replicate (k + 1) (Event.output getPodCmd) ++
          [Event.printf "Invalid amount of pods %d, expecting 1\n" [Arg.int l.length]] ++
          deleteDeployment env) := by
    intro env l hctx hci hap hreach hdoc hlen
    obtain ⟨f, hf⟩ : ∃ f, fuel = k + (f + 1) := ⟨fuel - k - 1, by omega⟩
    have hw : Wait fuel env 0 {} =
        some (List.replicate (k + 1) (Event.output getPodCmd) ++
          [Event.printf "Invalid amount of pods %d, expecting 1\n" [Arg.int l.length]],
          none) := by
      rw [hf, Wait_reach_zero env k (f + 1) hreach, Wait_count env f k _ l hdoc hlen]
      simp [List.replicate_succ']
    rw [main_loop_abort env out _ _ hctx hci hap hw]
    simp
  refine ⟨key env l hctx hci hap hreach hdoc hlen, ?_⟩
  intro l2 hl2
  rw [key env l hctx hci hap hreach hdoc hlen,
    key (env.withPod k (.doc ⟨some l2⟩)) l2 hctx hci hap
      (fun j hj => by rw [continuesAt_withPod env k _ j hj]; exact hreach j hj)
      (by simp [Env.withPod]) (by omega), hl2]
  rfl

theorem wrong_count_aborts_witness :
    (∀ j, j < 1 → continuesAt twoPodsEnv j = true) ∧
      main 2 twoPodsEnv =
        some (deployTrace "minikube\n" ++ List.replicate 2 (Event.output getPodCmd) ++
          [Event.printf "Invalid amount of pods %d, expecting 1\n" [Arg.int 2]] ++
          deleteDeployment twoPodsEnv) :=
  ⟨by decide,
    (wrong_count_aborts twoPodsEnv "minikube\n" 1 2
      [⟨some "tele", some "Running"⟩, ⟨some "tele-2", some "Pending"⟩] rfl rfl rfl
      (by decide) rfl (by decide) (by decide)).1⟩

theorem unmarshalPod_one (name : Option String) (phase : String) (pod : Pod) :
    (unmarshalPod ⟨some [⟨name, some phase⟩]⟩ pod).Items.length = 1 ∧
      ((unmarshalPod ⟨some [⟨name, some phase⟩]⟩ pod).Items.headD {}).Status.Phase = phase := by
  cases hp : pod.Items <;> simp [unmarshalPod, unmarshalItems, unmarshalItem, hp]

theorem unmarshalPod_one_named (name phase : String) (pod : Pod) :
    unmarshalPod ⟨some [⟨some name, some phase⟩]⟩ pod = ⟨[⟨⟨name⟩, ⟨phase⟩⟩]⟩ := by
  cases hp : pod.Items <;> simp [unmarshalPod, unmarshalItems, unmarshalItem, hp]

theorem continuesAt_of_pending (env : Env) (i : Nat) (name : Option String)
    (h : env.getPod i = .doc ⟨some [⟨name, some "Pending"⟩]⟩) :
    continuesAt env i = true :=
  (continuesAt_iff env i).2 ⟨_, h, unmarshalPod_one name "Pending" _⟩

theorem pfCmd_eq (name : String) :
    pfCmd name = ["kubectl", "port-forward\x27", name, "9876:8022"] := by
  have h : SSH_PORT ++ ":8022" = "9876:8022" := by decide
  simp only [pfCmd, h]

/-- C3: when the first `n` responses each hold exactly one `Pending` workload and
the next one holds exactly one `Running` workload named `last`, then with any
fuel above `n` the loop makes exactly `n + 1` queries and leaves by `break`,
and the next command started is the port forward whose target argument is
`last`, the name in the last response; no query follows. With fuel `n` or less
the run is still polling. -/
theorem ready_after_pending (env : Env) (out : String) (n : Nat)
    (names : Nat → Option String) (last : String)
    (hctx : env.currentContext = .ok out) (hci : env.clusterInfo = none)
    (hap : env.apply = none)
    (hpend : ∀ i, i < n → env.getPod i = .doc ⟨some [⟨names i, some "Pending"⟩]⟩)
    (hrun : env.getPod n = .doc ⟨some [⟨some last, some "Running"⟩]⟩) :
    (∀ fuel, n < fuel →
      Wait fuel env 0 {} =
          some (List.replicate (n + 1) (Event.output getPodCmd) ++
                  [Event.printf "Pod %s is up and running\n" [Arg.str last]],
                some ⟨[⟨⟨last⟩, ⟨"Running"⟩⟩]⟩) ∧
        ∃ rest,
          main fuel env =
              some (deployTrace out ++ List.replicate (n + 1) (Event.output getPodCmd) ++
                [Event.printf "Pod %s is up and running\n" [Arg.str last],
                 Event.start ["kubectl", "port-forward\x27", last, "9876:8022"]] ++ rest) ∧
            Event.output getPodCmd ∉ rest) ∧
      ∀ fuel, fuel ≤ n → main fuel env = none := by
  have hreach : ∀ j, j < n → continuesAt env j = true :=
    fun j hj => continuesAt_of_pending env j (names j) (hpend j hj)
  have hready : readyAt env n = true :=
    (readyAt_iff env n).2 ⟨_, hrun, unmarshalPod_one (some last) "Running" _⟩
  have hpod : podAt env (n + 1) = ⟨[⟨⟨last⟩, ⟨"Running"⟩⟩]⟩ := by
    rw [podAt_succ_doc env n _ hrun, unmarshalPod_one_named]
  have hname : podName env n = last := by simp [podName, hpod]
  constructor
  · intro fuel hfuel
    have hw := Wait_ready env n fuel hreach hready hfuel
    rw [hname, hpod] at hw
    refine ⟨hw, ?_⟩
    rw [main_loop_ready env out fuel _ _ hctx hci hap hw]
    have hq := afterReady_no_query env ⟨[⟨⟨last⟩, ⟨"Running"⟩⟩]⟩
    cases hpf : env.pfStart with
    | some err =>
      refine ⟨Event.printf "Could not port forward: %s\n" [Arg.err err] ::
        runDefers env 0 [Deferred.deleteDeployment], ?_, ?_⟩
      · rw [← pfCmd_eq last]
        simp [afterReady, hpf]
      · intro hmem
        refine hq _ ?_ rfl
        simp [afterReady, hpf] at hmem ⊢
        exact hmem
    | none =>
      refine ⟨(afterForward env last).trace ++ runDefers env 0 (afterForward env last).defers,
        ?_, ?_⟩
      · rw [← pfCmd_eq last]
        simp [afterReady, hpf]
      · intro hmem
        refine hq _ ?_ rfl
        simp [afterReady, hpf] at hmem ⊢
        exact hmem
  · intro fuel hfuel
    have hw : Wait fuel env 0 {} = none := by
      have := Wait_reach_zero env fuel 0 (fun j hj => hreach j (by omega))
      simpa [Wait] using this
    exact main_loop_none env out fuel hctx hci hap hw

theorem ready_after_pending_witness :
    (∀ i, i < 2 → scenarioEnv.getPod i = .doc ⟨some [⟨some "tele", some "Pending"⟩]⟩) ∧
      scenarioEnv.getPod 2 = .doc ⟨some [⟨some "tele", some "Running"⟩]⟩ ∧
      (Wait 3 scenarioEnv 0 {} =
          some (List.replicate 3 (Event.output getPodCmd) ++
                  [Event.printf "Pod %s is up and running\n" [Arg.str "tele"]],
                some ⟨[⟨⟨"tele"⟩, ⟨"Running"⟩⟩]⟩) ∧
        ∃ rest,
          main 3 scenarioEnv =
              some (deployTrace "minikube\n" ++
                List.replicate 3 (Event.output getPodCmd) ++
                [Event.printf "Pod %s is up and running\n" [Arg.str "tele"],
                 Event.start ["kubectl", "port-forward\x27", "tele", "9876:8022"]] ++
                rest) ∧
            Event.output getPodCmd ∉ rest) ∧
      main 2 scenarioEnv = none :=
  have h := ready_after_pending scenarioEnv "minikube\n" 2 (fun _ => some "tele") "tele"
    rfl rfl rfl (by decide) rfl
  ⟨by decide, rfl, h.1 3 (by decide), h.2 2 (by decide)⟩

/-! ## After the loop -/

/-- A run whose loop leaves by `break Wait` at iteration `k`. -/
theorem main_ready (env : Env) (out : String) (k fuel : Nat)
    (hctx : env.currentContext = .ok out) (hci : env.clusterInfo = none)
    (hap : env.apply = none)
    (hreach : ∀ j, j < k → continuesAt env j = true) (hready : readyAt env k = true)
    (hfuel : k < fuel) :
    main fuel env =
      some (deployTrace out ++ List.replicate (k + 1) (Event.output getPodCmd) ++
        [Event.printf "Pod %s is up and running\n" [Arg.str (podName env k)]] ++
        (afterReady env (podAt env (k + 1))).trace ++
        runDefers env 0 (afterReady env (podAt env (k + 1))).defers) := by
  rw [main_loop_ready env out fuel _ _ hctx hci hap (Wait_ready env k fuel hreach hready hfuel)]
  simp

/-- C6: when apply, polling and the port-forward start succeed and the network
inspector returns an empty list, `main` returns right after the inspection;
the deferred functions then kill the port forward and delete the deployment,
in that order, once each. The relay and the exec command are never started:
the commands of the run are listed in full. -/
theorem empty_network_list_aborts (env : Env) (out : String) (k fuel : Nat)
    (hctx : env.currentContext = .ok out) (hci : env.clusterInfo = none)
    (hap : env.apply = none)
    (hreach : ∀ j, j < k → continuesAt env j = true) (hready : readyAt env k = true)
    (hpf : env.pfStart = none) (hnet : env.inspect = .nets []) (hfuel : k < fuel) :
    ∃ t, main fuel env = some t ∧
      t = deployTrace out ++ List.replicate (k + 1) (Event.output getPodCmd) ++
          [Event.printf "Pod %s is up and running\n" [Arg.str (podName env k)],
           Event.start (pfCmd (podName env k)),
           Event.output inspectCmd,
           Event.println [Arg.str "Could not find ip for docker0"]] ++
          closePortForward env (pfCmd (podName env k)) 0 ++ deleteDeployment env ∧
      t.filter Event.isCommand =
        [Event.output currentContextCmd, Event.output clusterInfoCmd, Event.output applyCmd] ++
          List.replicate (k + 1) (Event.output getPodCmd) ++
          [Event.start (pfCmd (podName env k)), Event.output inspectCmd,
           Event.kill (pfCmd (podName env k)), Event.output deleteCmd] := by
  refine ⟨_, main_ready env out k fuel hctx hci hap hreach hready hfuel, ?_, ?_⟩
  · simp [afterReady, afterForward, hpf, hnet, runDefers, runDeferred, podName]
  · simp only [afterReady, afterForward, hpf, hnet, runDefers, runDeferred, podName,
      closePortForward, deleteDeployment, deployTrace]
    cases env.pfKill 0 <;> cases env.delete <;>
      simp [List.filter_cons, List.filter_replicate, Event.isCommand]

theorem empty_network_list_aborts_witness :
    (∀ j, j < 2 → continuesAt noNetworkEnv j = true) ∧ readyAt noNetworkEnv 2 = true ∧
      ∃ t, main 3 noNetworkEnv = some t ∧
        t = deployTrace "minikube\n" ++ List.replicate 3 (Event.output getPodCmd) ++
            [Event.printf "Pod %s is up and running\n" [Arg.str (podName noNetworkEnv 2)],
             Event.start (pfCmd (podName noNetworkEnv 2)),
             Event.output inspectCmd,
             Event.println [Arg.str "Could not find ip for docker0"]] ++
            closePortForward noNetworkEnv (pfCmd (podName noNetworkEnv 2)) 0 ++
            deleteDeployment noNetworkEnv ∧
        t.filter Event.isCommand =
          [Event.output currentContextCmd, Event.output clusterInfoCmd,
           Event.output applyCmd] ++
            List.replicate 3 (Event.output getPodCmd) ++
            [Event.start (pfCmd (podName noNetworkEnv 2)), Event.output inspectCmd,
             Event.kill (pfCmd (podName noNetworkEnv 2)), Event.output deleteCmd] :=
  ⟨by decide, by decide,
    empty_network_list_aborts noNetworkEnv "minikube\n" 2 3 rfl rfl rfl (by decide)
      (by decide) rfl rfl (by decide)⟩

theorem socatCmd_eq (dockerIP : String) :
    socatCmd dockerIP =
      ["socat", "TCP4-LISTEN:9876,bind=" ++ dockerIP ++ ",reuseaddr,fork",
       "TCP4:127.0.0.1:9876"] := by
  have h1 : "TCP4-LISTEN:" ++ SSH_PORT ++ ",bind=" = "TCP4-LISTEN:9876,bind=" := by decide
  have h2 : "TCP4:127.0.0.1:" ++ SSH_PORT = "TCP4:127.0.0.1:9876" := by decide
  simp only [socatCmd, h1, h2]

theorem runDeferred_no_start (env : Env) (kills : Nat) (d : Deferred) :
    ∀ c, Event.start c ∉ (runDeferred env kills d).1 := by
  intro c
  cases d with
  | deleteDeployment =>
    simp only [runDeferred, deleteDeployment]
    cases env.delete <;> simp
  | closePortForward pf =>
    simp only [runDeferred, closePortForward]
    cases env.pfKill kills <;> simp
  | closeSocat pf =>
    simp only [runDeferred, closeSocat]
    cases env.pfKill kills <;> simp

theorem runDefers_no_start (env : Env) (ds : List Deferred) :
    ∀ kills c, Event.start c ∉ runDefers env kills ds := by
  induction ds with
  | nil => intro kills c; simp [runDefers]
  | cons d ds ih =>
    intro kills c he
    simp only [runDefers, List.mem_append] at he
    rcases he with he | he
    · exact runDeferred_no_start env kills d c he
    · exact ih _ c he

/-- C10: for every non-empty list of network records the relay is started on
the `Gateway` of the first record: `socat` listens on that address at port 9876
and forwards to `127.0.0.1:9876`, whatever the other records hold, and no other
process is started afterwards. -/
theorem relay_uses_first_gateway (env : Env) (out : String) (k fuel : Nat)
    (n : DockerNetwork) (ns : List DockerNetwork)
    (hctx : env.currentContext = .ok out) (hci : env.clusterInfo = none)
    (hap : env.apply = none)
    (hreach : ∀ j, j < k → continuesAt env j = true) (hready : readyAt env k = true)
    (hpf : env.pfStart = none) (hnet : env.inspect = .nets (n :: ns)) (hfuel : k < fuel) :
    ∃ rest,
      main fuel env =
          some (deployTrace out ++ List.replicate (k + 1) (Event.output getPodCmd) ++
            [Event.printf "Pod %s is up and running\n" [Arg.str (podName env k)],
             Event.start (pfCmd (podName env k)),
             Event.output inspectCmd,
             Event.println [Arg.str "IP for docker0:", Arg.str n.Gateway],
             Event.start ["socat", "TCP4-LISTEN:9876,bind=" ++ n.Gateway ++ ",reuseaddr,fork",
               "TCP4:127.0.0.1:9876"]] ++ rest) ∧
        ∀ c, Event.start c ∉ rest := by
  have hm := main_ready env out k fuel hctx hci hap hreach hready hfuel
  cases hs : env.socatStart with
  | some err =>
    refine ⟨Event.printf "Could not start socat: %s\n" [Arg.err err] ::
      runDefers env 0 [Deferred.closePortForward (pfCmd (podName env k)),
        Deferred.deleteDeployment], ?_, ?_⟩
    · rw [hm]
      simp [afterReady, afterForward, hpf, hnet, hs, podName, socatCmd_eq]
    · intro c hc
      simp only [List.mem_cons, reduceCtorEq, false_or] at hc
      exact runDefers_no_start env _ 0 c hc
  | none =>
    cases he : env.execEnv with
    | some err =>
      refine ⟨[Event.output (execCmd (podName env k)),
          Event.printf "Could not get env variables: %s\n" [Arg.err err]] ++
        runDefers env 0 [Deferred.closeSocat (pfCmd (podName env k)),
          Deferred.closePortForward (pfCmd (podName env k)), Deferred.deleteDeployment], ?_, ?_⟩
      · rw [hm]
        simp [afterReady, afterForward, hpf, hnet, hs, he, podName, socatCmd_eq]
      · intro c hc
        simp only [List.mem_append, List.mem_cons, reduceCtorEq, false_or,
          List.mem_nil_iff] at hc
        exact runDefers_no_start env _ 0 c hc
    | none =>
      refine ⟨[Event.output (execCmd (podName env k))] ++
        runDefers env 0 [Deferred.closeSocat (pfCmd (podName env k)),
          Deferred.closePortForward (pfCmd (podName env k)), Deferred.deleteDeployment], ?_, ?_⟩
      · rw [hm]
        simp [afterReady, afterForward, hpf, hnet, hs, he, podName, socatCmd_eq]
      · intro c hc
        simp only [List.mem_append, List.mem_cons, reduceCtorEq, false_or,
          List.mem_nil_iff] at hc
        exact runDefers_no_start env _ 0 c hc

theorem relay_uses_first_gateway_witness :
    (∀ j, j < 2 → continuesAt twoNetworksEnv j = true) ∧ readyAt twoNetworksEnv 2 = true ∧
      ∃ rest,
        main 3 twoNetworksEnv =
            some (deployTrace "minikube\n" ++ List.replicate 3 (Event.output getPodCmd) ++
              [Event.printf "Pod %s is up and running\n"
                 [Arg.str (podName twoNetworksEnv 2)],
               Event.start (pfCmd (podName twoNetworksEnv 2)),
               Event.output inspectCmd,
               Event.println [Arg.str "IP for docker0:", Arg.str "172.17.0.1"],
               Event.start ["socat", "TCP4-LISTEN:9876,bind=" ++ "172.17.0.1" ++
                 ",reuseaddr,fork", "TCP4:127.0.0.1:9876"]] ++ rest) ∧
          ∀ c, Event.start c ∉ rest :=
  ⟨by decide, by decide,
    relay_uses_first_gateway twoNetworksEnv "minikube\n" 2 3 ⟨"172.17.0.0/16", "172.17.0.1"⟩
      [⟨"10.0.0.0/8", "10.0.0.1"⟩] rfl rfl rfl (by decide) (by decide) rfl rfl (by decide)⟩

/-! ## Exit of `main` -/

/-- The loop runs out of fuel only when every iteration it made reached
`continue`. -/
theorem Wait_none (env : Env) :
    ∀ fuel i, Wait fuel env i (podAt env i) = none →
      ∀ j, i ≤ j → j < i + fuel → continuesAt env j = true := by
  intro fuel
  induction fuel with
  | zero => intro i _ j h1 h2; omega
  | succ fuel ih =>
    intro i h j h1 h2
    rw [Wait] at h
    cases hg : env.getPod i with
    | fail err => simp [hg] at h
    | malformed err => simp [hg] at h
    | doc d =>
      simp only [hg] at h
      by_cases hlen : (unmarshalPod d (podAt env i)).Items.length = 1
      · simp only [hlen, ne_eq, not_true_eq_false, if_false] at h
        by_cases hr : ((unmarshalPod d (podAt env i)).Items.headD {}).Status.Phase = "Running"
        · rw [if_pos hr] at h; cases h
        · simp only [hr, if_false] at h
          by_cases hp :
              ((unmarshalPod d (podAt env i)).Items.headD {}).Status.Phase = "Pending"
          · simp only [hp, if_true, Option.map_eq_none'] at h
            rw [← podAt_succ_doc env i d hg] at h
            by_cases hji : j = i
            · subst hji
              exact (continuesAt_iff env j).2 ⟨d, hg, hlen, hp⟩
            · exact ih (i + 1) h j (by omega) (by omega)
          · rw [if_neg hp] at h; cases h
      · simp [hlen] at h

/-- The loop only queries and prints. -/
theorem Wait_events (env : Env) :
    ∀ fuel i pod t r, Wait fuel env i pod = some (t, r) →
      ∀ e ∈ t, e = Event.output getPodCmd ∨ e.isCommand = false := by
  intro fuel
  induction fuel with
  | zero => intro i pod t r h; simp [Wait] at h
  | succ fuel ih =>
    intro i pod t r h
    rw [Wait] at h
    cases hg : env.getPod i with
    | fail err =>
      simp only [hg, Option.some.injEq, Prod.mk.injEq] at h
      obtain ⟨rfl, _⟩ := h
      simp [Event.isCommand]
    | malformed err =>
      simp only [hg, Option.some.injEq, Prod.mk.injEq] at h
      obtain ⟨rfl, _⟩ := h
      simp [Event.isCommand]
    | doc d =>
      simp only [hg] at h
      by_cases hlen : (unmarshalPod d pod).Items.length = 1
      · simp only [hlen, ne_eq, not_true_eq_false, if_false] at h
        by_cases hr : ((unmarshalPod d pod).Items.headD {}).Status.Phase = "Running"
        · simp only [hr, if_true, Option.some.injEq, Prod.mk.injEq] at h
          obtain ⟨rfl, _⟩ := h
          simp [Event.isCommand]
        · simp only [hr, if_false] at h
          by_cases hp : ((unmarshalPod d pod).Items.headD {}).Status.Phase = "Pending"
          · simp only [hp, if_true, Option.map_eq_some', Prod.mk.injEq] at h
            obtain ⟨⟨t2, r2⟩, hw, rfl, _⟩ := h
            intro e he
            rcases List.mem_cons.1 he with rfl | he
            · exact Or.inl rfl
            · exact ih (i + 1) _ t2 r2 hw e he
          · simp only [hp, if_false, Option.some.injEq, Prod.mk.injEq] at h
            obtain ⟨rfl, _⟩ := h
            simp [Event.isCommand]
      · simp only [ne_eq, hlen, not_false_eq_true, if_true, Option.some.injEq,
          Prod.mk.injEq] at h
        obtain ⟨rfl, _⟩ := h
        simp [Event.isCommand]

/-- When the loop is left by `break Wait`, `pod.Items` has exactly one element,
so `pod.Items[0]` on line 172 is in range. -/
theorem Wait_break_length (env : Env) :
    ∀ fuel i pod t p, Wait fuel env i pod = some (t, some p) → p.Items.length = 1 := by
  intro fuel
  induction fuel with
  | zero => intro i pod t p h; simp [Wait] at h
  | succ fuel ih =>
    intro i pod t p h
    rw [Wait] at h
    cases hg : env.getPod i with
    | fail err => simp [hg] at h
    | malformed err => simp [hg] at h
    | doc d =>
      simp only [hg] at h
      by_cases hlen : (unmarshalPod d pod).Items.length = 1
      · simp only [hlen, ne_eq, not_true_eq_false, if_false] at h
        by_cases hr : ((unmarshalPod d pod).Items.headD {}).Status.Phase = "Running"
        · simp only [hr, if_true, Option.some.injEq, Prod.mk.injEq] at h
          obtain ⟨_, rfl⟩ := h
          exact hlen
        · simp only [hr, if_false] at h
          by_cases hp : ((unmarshalPod d pod).Items.headD {}).Status.Phase = "Pending"
          · simp only [hp, if_true, Option.map_eq_some', Prod.mk.injEq] at h
            obtain ⟨⟨t2, r2⟩, hw, _, rfl⟩ := h
            exact ih (i + 1) _ t2 p hw
          · simp only [hp, if_false, Option.some.injEq, Prod.mk.injEq] at h
            obtain ⟨_, h2⟩ := h
            cases h2
      · simp only [ne_eq, hlen, not_false_eq_true, if_true, Option.some.injEq,
          Prod.mk.injEq] at h
        obtain ⟨_, h2⟩ := h
        cases h2

theorem Wait_no_release (env : Env) (fuel i : Nat) (pod : Pod) (t : List Event)
    (r : Option Pod) (h : Wait fuel env i pod = some (t, r)) :
    ∀ e ∈ t, e.isRelease = false := by
  intro e he
  rcases Wait_events env fuel i pod t r h e he with rfl | hc
  · simp [Event.isRelease, getPodCmd, deleteCmd]
  · cases e <;> simp_all [Event.isCommand, Event.isRelease]

theorem Wait_no_start (env : Env) (fuel i : Nat) (pod : Pod) (t : List Event)
    (r : Option Pod) (h : Wait fuel env i pod = some (t, r)) :
    ∀ c, Event.start c ∉ t := by
  intro c he
  rcases Wait_events env fuel i pod t r h _ he with hq | hc
  · cases hq
  · simp [Event.isCommand] at hc

theorem deployTrace_no_release (out : String) :
    ∀ e ∈ deployTrace out, e.isRelease = false := by
  simp [deployTrace, Event.isRelease, currentContextCmd, clusterInfoCmd, applyCmd, deleteCmd]

/-- Each deferred function performs its release action once and nothing else that
releases. -/
theorem runDefers_releases (env : Env) (ds : List Deferred) :
    ∀ kills, (runDefers env kills ds).filter Event.isRelease = ds.map Deferred.action := by
  induction ds with
  | nil => intro kills; simp [runDefers]
  | cons d ds ih =>
    intro kills
    rw [runDefers, List.filter_append, ih, List.map_cons]
    cases d with
    | deleteDeployment =>
      simp only [runDeferred, deleteDeployment, Deferred.action]
      cases env.delete <;> simp [List.filter_cons, Event.isRelease]
    | closePortForward pf =>
      simp only [runDeferred, closePortForward, Deferred.action]
      cases env.pfKill kills <;> simp [List.filter_cons, Event.isRelease]
    | closeSocat pf =>
      simp only [runDeferred, closeSocat, Deferred.action]
      cases env.pfKill kills <;> simp [List.filter_cons, Event.isRelease]

theorem afterForward_no_release (env : Env) (name : String) :
    ∀ e ∈ (afterForward env name).trace, e.isRelease = false := by
  unfold afterForward
  cases env.inspect with
  | fail err => simp [Event.isRelease, deleteCmd, inspectCmd]
  | malformed err => simp [Event.isRelease, deleteCmd, inspectCmd]
  | nets networks =>
    cases networks with
    | nil => simp [Event.isRelease, deleteCmd, inspectCmd]
    | cons n ns =>
      cases env.socatStart with
      | some err => simp [Event.isRelease, deleteCmd, inspectCmd]
      | none => cases env.execEnv <;> simp [Event.isRelease, deleteCmd, inspectCmd, execCmd]

/-- What is deferred when the body returns after the port forward was started:
the relay release is on the stack exactly when the relay was started and the
start succeeded. -/
theorem afterForward_defers (env : Env) (name : String) :
    ((afterForward env name).defers =
          [Deferred.closePortForward (pfCmd name), Deferred.deleteDeployment] ∧
        ¬ ∃ ip, relayed env (afterForward env name).trace ip) ∨
      ∃ ip, (afterForward env name).defers =
          [Deferred.closeSocat (pfCmd name), Deferred.closePortForward (pfCmd name),
           Deferred.deleteDeployment] ∧
        relayed env (afterForward env name).trace ip := by
  unfold afterForward relayed
  cases env.inspect with
  | fail err => left; simp
  | malformed err => left; simp
  | nets networks =>
    cases networks with
    | nil => left; simp
    | cons n ns =>
      cases hs : env.socatStart with
      | some err => left; simp
      | none =>
        right
        refine ⟨n.Gateway, ?_⟩
        cases env.execEnv <;> simp

/-- C7: once the port forward is started, whatever `Kill` and the delete
command return, every deferred function still runs, once, in last-in-first-out
order, and reports its own result: the run ends with the port-forward release
and the deployment delete, preceded by the relay release when the relay was
started. A `Kill` that returns an error only changes the line printed by the
function that called it. -/
theorem release_failure_isolated (env : Env) (out : String) (k fuel : Nat)
    (hctx : env.currentContext = .ok out) (hci : env.clusterInfo = none)
    (hap : env.apply = none)
    (hreach : ∀ j, j < k → continuesAt env j = true) (hready : readyAt env k = true)
    (hpf : env.pfStart = none) (hfuel : k < fuel) :
    (∃ body, (∀ e ∈ body, e.isRelease = false) ∧
      (main fuel env =
          some (body ++ closePortForward env (pfCmd (podName env k)) 0 ++
            deleteDeployment env) ∨
        main fuel env =
          some (body ++ closeSocat env (pfCmd (podName env k)) 0 ++
            closePortForward env (pfCmd (podName env k)) 1 ++ deleteDeployment env))) ∧
      (∀ j e, env.pfKill j = some e →
        closeSocat env (pfCmd (podName env k)) j =
            [Event.kill (pfCmd (podName env k)),
             Event.println [Arg.str "Could not close socat:", Arg.err e]] ∧
          closePortForward env (pfCmd (podName env k)) j =
            [Event.kill (pfCmd (podName env k)),
             Event.println [Arg.str "Could not close port forward:", Arg.err e]]) ∧
      (∃ report, deleteDeployment env =
          [Event.println [Arg.str "Deleting deployment"], Event.output deleteCmd, report] ∧
        (env.delete = none → report = Event.println [Arg.str "Exited succesfully"]) ∧
        ∀ e, env.delete = some e →
          report = Event.printf "Deleting deployment failed: %s\n" [Arg.err e]) := by
  refine ⟨?_, ?_, ?_⟩
  · have hm := main_ready env out k fuel hctx hci hap hreach hready hfuel
    have hname : ((podAt env (k + 1)).Items.headD {}).Metadata.Name = podName env k := rfl
    refine ⟨deployTrace out ++ List.replicate (k + 1) (Event.output getPodCmd) ++
        [Event.printf "Pod %s is up and running\n" [Arg.str (podName env k)]] ++
        Event.start (pfCmd (podName env k)) :: (afterForward env (podName env k)).trace,
      ?_, ?_⟩
    · intro e he
      simp only [List.mem_append, List.mem_cons, List.mem_replicate, List.mem_singleton,
        List.mem_nil_iff, or_false] at he
      rcases he with ((he | ⟨_, rfl⟩) | rfl) | rfl | he
      · exact deployTrace_no_release out e he
      · simp [Event.isRelease, getPodCmd, deleteCmd]
      · rfl
      · rfl
      · exact afterForward_no_release env _ e he
    · rcases afterForward_defers env (podName env k) with ⟨hd, _⟩ | ⟨ip, hd, _⟩
      · left
        rw [hm]
        simp only [afterReady, hpf, hname, hd, runDefers, runDeferred]
        simp
      · right
        rw [hm]
        simp only [afterReady, hpf, hname, hd, runDefers, runDeferred]
        simp
  · intro j e he
    simp [closeSocat, closePortForward, he]
  · unfold deleteDeployment
    cases hd : env.delete with
    | none => exact ⟨_, rfl, fun _ => rfl, fun e he => (by cases he)⟩
    | some err =>
      refine ⟨_, rfl, ?_, ?_⟩
      · intro h; cases h
      · intro e he; cases he; rfl

theorem release_failure_isolated_witness :
    (∀ j, j < 2 → continuesAt killFailsEnv j = true) ∧ readyAt killFailsEnv 2 = true ∧
      killFailsEnv.pfKill 0 = some "os: process already finished" ∧
      ∃ body, (∀ e ∈ body, e.isRelease = false) ∧
        (main 3 killFailsEnv =
            some (body ++ closePortForward killFailsEnv (pfCmd (podName killFailsEnv 2)) 0 ++
              deleteDeployment killFailsEnv) ∨
          main 3 killFailsEnv =
            some (body ++ closeSocat killFailsEnv (pfCmd (podName killFailsEnv 2)) 0 ++
              closePortForward killFailsEnv (pfCmd (podName killFailsEnv 2)) 1 ++
              deleteDeployment killFailsEnv)) :=
  ⟨by decide, by decide, rfl,
    (release_failure_isolated killFailsEnv "minikube\n" 2 3 rfl rfl rfl (by decide)
      (by decide) rfl (by decide)).1⟩

theorem deployTrace_no_start (out : String) : ∀ c, Event.start c ∉ deployTrace out := by
  simp [deployTrace]

theorem apply_mem_deployTrace (out : String) : Event.output applyCmd ∈ deployTrace out := by
  simp [deployTrace]

theorem socatCmd_ne_pfCmd (ip name : String) : socatCmd ip ≠ pfCmd name := by
  simp [socatCmd, pfCmd]

/-- Every run of `main`, classified by what was deferred when the body
returned. -/
theorem main_exit_cases (env : Env) (fuel : Nat) :
    (main fuel env = none ∧ ∀ i, i < fuel → continuesAt env i = true) ∨
      ∃ setup ds,
        main fuel env = some (setup ++ runDefers env 0 ds.reverse) ∧
        (∀ e ∈ setup, e.isRelease = false) ∧
        (runDefers env 0 ds.reverse).filter Event.isRelease =
          ds.reverse.map Deferred.action ∧
        ((ds = [] ∧ ¬ applied env setup) ∨
          (ds = [Deferred.deleteDeployment] ∧ applied env setup ∧
            ¬ ∃ name, forwarded env setup name) ∨
          (∃ name, ds = [Deferred.deleteDeployment, Deferred.closePortForward (pfCmd name)] ∧
            applied env setup ∧ forwarded env setup name ∧ ¬ ∃ ip, relayed env setup ip) ∨
          (∃ name ip,
            ds = [Deferred.deleteDeployment, Deferred.closePortForward (pfCmd name),
                  Deferred.closeSocat (pfCmd name)] ∧
            applied env setup ∧ forwarded env setup name ∧ relayed env setup ip)) ∧
        (((∃ e, env.currentContext = .error e) ∨ env.clusterInfo ≠ none ∨ env.apply ≠ none) →
          ds = []) := by
  cases hctx : env.currentContext with
  | error err =>
    right
    refine ⟨[Event.output currentContextCmd,
      Event.printf "Could not get current context for kubectl: %s\n" [Arg.err err]], [],
      ?_, ?_, runDefers_releases env _ 0, Or.inl ⟨rfl, ?_⟩, fun _ => rfl⟩
    · simp [main, mainBody, hctx, runDefers]
    · simp [Event.isRelease, currentContextCmd, deleteCmd]
    · simp [applied, currentContextCmd, applyCmd]
  | ok out =>
    cases hci : env.clusterInfo with
    | some err =>
      right
      refine ⟨[Event.output currentContextCmd,
        Event.println [Arg.str "Using context:", Arg.str (TrimSpace out)],
        Event.output clusterInfoCmd,
        Event.printf "Could not connect to cluster: %s\n" [Arg.err err]], [],
        ?_, ?_, runDefers_releases env _ 0, Or.inl ⟨rfl, ?_⟩, fun _ => rfl⟩
      · simp [main, mainBody, hctx, hci, runDefers]
      · simp [Event.isRelease, currentContextCmd, clusterInfoCmd, deleteCmd]
      · simp [applied, currentContextCmd, clusterInfoCmd, applyCmd]
    | none =>
      cases hap : env.apply with
      | some err =>
        right
        refine ⟨deployTrace out ++
          [Event.printf "Could not deploy tele image: %s\n" [Arg.err err]], [],
          ?_, ?_, runDefers_releases env _ 0, Or.inl ⟨rfl, ?_⟩, fun _ => rfl⟩
        · simp [main, mainBody, hctx, hci, hap, runDefers, deployTrace]
        · intro e he
          rcases List.mem_append.1 he with he | he
          · exact deployTrace_no_release out e he
          · simp at he; subst he; rfl
        · simp [applied, hap]
      | none =>
        have happlied : ∀ l, applied env (deployTrace out ++ l) := fun l =>
          ⟨List.mem_append_left _ (apply_mem_deployTrace out), hap⟩
        have hlast : ∀ ds : List Deferred,
            ((∃ e, (Except.ok out : Except String String) = .error e) ∨
              (none : GoError) ≠ none ∨ (none : GoError) ≠ none) → ds = [] := by
          intro ds h
          simp at h
        cases hw : Wait fuel env 0 {} with
        | none =>
          left
          exact ⟨main_loop_none env out fuel hctx hci hap hw,
            fun i hi => Wait_none env fuel 0 hw i (Nat.zero_le i) (by omega)⟩
        | some tr =>
          obtain ⟨t, r⟩ := tr
          right
          cases r with
          | none =>
            refine ⟨deployTrace out ++ t, [Deferred.deleteDeployment], ?_, ?_,
              runDefers_releases env _ 0, Or.inr (Or.inl ⟨rfl, happlied t, ?_⟩), hlast _⟩
            · rw [main_loop_abort env out fuel t hctx hci hap hw]
              simp [runDefers, runDeferred]
            · intro e he
              rcases List.mem_append.1 he with he | he
              · exact deployTrace_no_release out e he
              · exact Wait_no_release env fuel 0 _ t _ hw e he
            · rintro ⟨name, hmem, _⟩
              rcases List.mem_append.1 hmem with he | he
              · exact deployTrace_no_start out _ he
              · exact Wait_no_start env fuel 0 _ t _ hw _ he
          | some pod =>
            have hm := main_loop_ready env out fuel t pod hctx hci hap hw
            cases hpf : env.pfStart with
            | some err =>
              refine ⟨deployTrace out ++ (t ++
                  [Event.start (pfCmd (pod.Items.headD {}).Metadata.Name),
                   Event.printf "Could not port forward: %s\n" [Arg.err err]]),
                [Deferred.deleteDeployment], ?_, ?_,
                runDefers_releases env _ 0, Or.inr (Or.inl ⟨rfl, happlied _, ?_⟩), hlast _⟩
              · rw [hm]
                simp [afterReady, hpf]
              · intro e he
                simp only [List.mem_append, List.mem_cons, List.mem_nil_iff, or_false] at he
                rcases he with he | he | rfl | rfl
                · exact deployTrace_no_release out e he
                · exact Wait_no_release env fuel 0 _ t _ hw e he
                · rfl
                · rfl
              · rintro ⟨name, _, h⟩
                rw [hpf] at h
                cases h
            | none =>
              have hsetup : ∀ e ∈ deployTrace out ++ (t ++
                  Event.start (pfCmd (pod.Items.headD {}).Metadata.Name) ::
                    (afterForward env (pod.Items.headD {}).Metadata.Name).trace),
                  e.isRelease = false := by
                intro e he
                simp only [List.mem_append, List.mem_cons] at he
                rcases he with he | he | rfl | he
                · exact deployTrace_no_release out e he
                · exact Wait_no_release env fuel 0 _ t _ hw e he
                · rfl
                · exact afterForward_no_release env _ e he
              have hfwd : forwarded env (deployTrace out ++ (t ++
                  Event.start (pfCmd (pod.Items.headD {}).Metadata.Name) ::
                    (afterForward env (pod.Items.headD {}).Metadata.Name).trace))
                  (pod.Items.headD {}).Metadata.Name :=
                ⟨by simp, hpf⟩
              rcases afterForward_defers env (pod.Items.headD {}).Metadata.Name with
                ⟨hd, hnr⟩ | ⟨ip, hd, hr⟩
              · refine ⟨_, [Deferred.deleteDeployment,
                    Deferred.closePortForward (pfCmd (pod.Items.headD {}).Metadata.Name)],
                  ?_, hsetup, runDefers_releases env _ 0,
                  Or.inr (Or.inr (Or.inl ⟨_, rfl, happlied _, hfwd, ?_⟩)), hlast _⟩
                · rw [hm]
                  simp only [afterReady, hpf, hd]
                  simp
                · rintro ⟨ip, hmem, hs⟩
                  simp only [List.mem_append, List.mem_cons] at hmem
                  rcases hmem with he | he | he | he
                  · exact deployTrace_no_start out _ he
                  · exact Wait_no_start env fuel 0 _ t _ hw _ he
                  · exact socatCmd_ne_pfCmd ip _ (Event.start.inj he)
                  · exact hnr ⟨ip, he, hs⟩
              · refine ⟨_, [Deferred.deleteDeployment,
                    Deferred.closePortForward (pfCmd (pod.Items.headD {}).Metadata.Name),
                    Deferred.closeSocat (pfCmd (pod.Items.headD {}).Metadata.Name)],
                  ?_, hsetup, runDefers_releases env _ 0,
                  Or.inr (Or.inr (Or.inr ⟨_, ip, rfl, happlied _, hfwd, ?_⟩)), hlast _⟩
                · rw [hm]
                  simp only [afterReady, hpf, hd]
                  simp
                · exact ⟨List.mem_append_right _ (List.mem_append_right _
                    (List.mem_cons_of_mem _ hr.1)), hr.2⟩

/-- C1: whatever the external commands return, a run of `main` either is still
polling when the fuel ends, or returns, and then its events are a setup part
without any release action followed by the deferred functions registered so
far, run in reverse order of registration, each performing its release action
once. What is registered is read off the setup part: the deployment delete
after a successful apply, the port-forward release after a successful
port-forward start, the relay release after a successful relay start. Nothing
is registered when the context query, `cluster-info` or apply fails. -/
theorem teardown_runs_registered_in_reverse (env : Env) (fuel : Nat) :
    (main fuel env = none ∧ ∀ i, i < fuel → continuesAt env i = true) ∨
      ∃ setup ds,
        main fuel env = some (setup ++ runDefers env 0 ds.reverse) ∧
        (∀ e ∈ setup, e.isRelease = false) ∧
        (runDefers env 0 ds.reverse).filter Event.isRelease =
          ds.reverse.map Deferred.action ∧
        ((ds = [] ∧ ¬ applied env setup) ∨
          (ds = [Deferred.deleteDeployment] ∧ applied env setup ∧
            ¬ ∃ name, forwarded env setup name) ∨
          (∃ name, ds = [Deferred.deleteDeployment, Deferred.closePortForward (pfCmd name)] ∧
            applied env setup ∧ forwarded env setup name ∧ ¬ ∃ ip, relayed env setup ip) ∨
          (∃ name ip,
            ds = [Deferred.deleteDeployment, Deferred.closePortForward (pfCmd name),
                  Deferred.closeSocat (pfCmd name)] ∧
            applied env setup ∧ forwarded env setup name ∧ relayed env setup ip)) ∧
        (((∃ e, env.currentContext = .error e) ∨ env.clusterInfo ≠ none ∨ env.apply ≠ none) →
          ds = []) :=
  main_exit_cases env fuel

/-! ## The end-to-end scenario and the places where the code departs from the
specification -/

/-- C2: the run of the end-to-end scenario (phases `Pending`, `Pending`,
`Running`, gateway `172.17.0.1`). The function deferred after the relay start
calls `Kill` on the process of `pfCmd`: the port forward is killed twice and
no `Kill` ever reaches the process of `socatCmd`. -/
theorem scenario_kills_port_forward_twice :
    main 3 scenarioEnv =
      some [Event.output ["kubectl", "config", "current-context"],
            Event.println [Arg.str "Using context:", Arg.str "minikube"],
            Event.output ["kubectl", "cluster-info"],
            Event.println [Arg.str "Deploying..."],
            Event.output ["kubectl", "apply", "-f", "tele.yaml"],
            Event.output ["kubectl", "get", "pod", "-l", "name=myservice", "-o", "json"],
            Event.output ["kubectl", "get", "pod", "-l", "name=myservice", "-o", "json"],
            Event.output ["kubectl", "get", "pod", "-l", "name=myservice", "-o", "json"],
            Event.printf "Pod %s is up and running\n" [Arg.str "tele"],
            Event.start ["kubectl", "port-forward\x27", "tele", "9876:8022"],
            Event.output ["docker", "network", "inspect", "bridge",
              "--format=\x7b\x7bjson .IPAM.Config\x7d\x7d"],
            Event.println [Arg.str "IP for docker0:", Arg.str "172.17.0.1"],
            Event.start ["socat", "TCP4-LISTEN:9876,bind=172.17.0.1,reuseaddr,fork",
              "TCP4:127.0.0.1:9876"],
            Event.output ["kubectl", "exec", "tele", "env"],
            Event.kill ["kubectl", "port-forward\x27", "tele", "9876:8022"],
            Event.println [Arg.str "socat closed closed"],
            Event.kill ["kubectl", "port-forward\x27", "tele", "9876:8022"],
            Event.println [Arg.str "Port forward closed"],
            Event.println [Arg.str "Deleting deployment"],
            Event.output ["kubectl", "delete", "-f", "tele.yaml"],
            Event.println [Arg.str "Exited succesfully"]] ∧
      ∀ (env : Env) (fuel : Nat) (t : List Event), main fuel env = some t →
        ∀ ip, Event.kill (socatCmd ip) ∉ t := by
  refine ⟨by decide, ?_⟩
  intro env fuel t ht ip hmem
  rcases main_exit_cases env fuel with ⟨hn, _⟩ | ⟨setup, ds, hm, hs, hf, hc, _⟩
  · rw [hn] at ht; cases ht
  · rw [hm] at ht
    cases ht
    rcases List.mem_append.1 hmem with he | he
    · have := hs _ he
      simp [Event.isRelease] at this
    · have hrel : Event.kill (socatCmd ip) ∈
          (runDefers env 0 ds.reverse).filter Event.isRelease :=
        List.mem_filter.2 ⟨he, rfl⟩
      rw [hf] at hrel
      rcases hc with ⟨rfl, _⟩ | ⟨rfl, _⟩ | ⟨name, rfl, _⟩ | ⟨name, ip2, rfl, _⟩
      · simp at hrel
      · simp [Deferred.action] at hrel
      · simp only [List.reverse_cons, List.reverse_nil, List.nil_append, List.cons_append,
          List.map_cons, List.map_nil, Deferred.action, List.mem_cons, Event.kill.injEq,
          reduceCtorEq, List.mem_nil_iff, or_false] at hrel
        exact socatCmd_ne_pfCmd ip name hrel
      · simp only [List.reverse_cons, List.reverse_nil, List.nil_append, List.cons_append,
          List.map_cons, List.map_nil, Deferred.action, List.mem_cons, Event.kill.injEq,
          reduceCtorEq, List.mem_nil_iff, or_false, or_self] at hrel
        exact socatCmd_ne_pfCmd ip name hrel

/-- C8: the argument vector of the port-forward command. Its second element is
`port-forward` followed by the character U+0027, so it is not the argument
vector of the `port-forward` subcommand. -/
theorem pfCmd_argv (name : String) :
    pfCmd name = ["kubectl", "port-forward\x27", name, "9876:8022"] ∧
      pfCmd name ≠ ["kubectl", "port-forward", name, "9876:8022"] ∧
      Event.start ["kubectl", "port-forward\x27", "tele", "9876:8022"] ∈
        (main 3 scenarioEnv).getD [] ∧
      Event.start ["kubectl", "port-forward", "tele", "9876:8022"] ∉
        (main 3 scenarioEnv).getD [] := by
  refine ⟨?_, ?_, by decide, by decide⟩
  · have h : SSH_PORT ++ ":8022" = "9876:8022" := by decide
    simp only [pfCmd, h]
  · have h : SSH_PORT ++ ":8022" = "9876:8022" := by decide
    have h2 : "port-forward\x27" ≠ "port-forward" := by decide
    simp only [pfCmd, h, ne_eq, List.cons.injEq, true_and, and_true, h2, not_false_eq_true,
      false_and]

/-- C9: `pod` is allocated once, before the loop, and every iteration decodes
into it. After a response with one `Pending` workload, a response without an
`items` member leaves `pod.Items` as it was: the count check reads 1, the
phase read is `Pending`, and the loop queries a third time instead of
reporting a count of 0. -/
theorem stale_items_survive_missing_list :
    podAt staleEnv 2 = ⟨[⟨⟨"tele"⟩, ⟨"Pending"⟩⟩]⟩ ∧
      continuesAt staleEnv 1 = true ∧
      main 3 staleEnv =
        some (deployTrace "minikube\n" ++
          [Event.output getPodCmd,
           Event.output getPodCmd,
           Event.output getPodCmd,
           Event.printf "Could not get pod info: %s\n" [Arg.err "exit status 1"]] ++
          deleteDeployment staleEnv) ∧
      main 3 staleEnv ≠
        some (deployTrace "minikube\n" ++
          [Event.output getPodCmd,
           Event.output getPodCmd,
           Event.printf "Invalid amount of pods %d, expecting 1\n" [Arg.int 0]] ++
          deleteDeployment staleEnv) := by
  refine ⟨by decide, by decide, by decide, by decide⟩

/-- C5: a response without an `items` member holds no workload, yet after a
cycle that reached `continue` it does not end the loop: `pod.Items` still
holds the element of the earlier response, the count check reads 1 and the
phase read is `Pending`, so the cycle reaches `continue` again. In the run
shown, the second response has no `items` member; a third query is issued and
the port forward is started. -/
theorem missing_items_list_polls_again :
    (∀ (env : Env) (k : Nat), continuesAt env k = true →
        env.getPod (k + 1) = .doc ⟨none⟩ → continuesAt env (k + 1) = true) ∧
      missingListEnv.getPod 1 = .doc ⟨none⟩ ∧
      main 3 missingListEnv =
        some [Event.output ["kubectl", "config", "current-context"],
              Event.println [Arg.str "Using context:", Arg.str "minikube"],
              Event.output ["kubectl", "cluster-info"],
              Event.println [Arg.str "Deploying..."],
              Event.output ["kubectl", "apply", "-f", "tele.yaml"],
              Event.output ["kubectl", "get", "pod", "-l", "name=myservice", "-o", "json"],
              Event.output ["kubectl", "get", "pod", "-l", "name=myservice", "-o", "json"],
              Event.output ["kubectl", "get", "pod", "-l", "name=myservice", "-o", "json"],
              Event.printf "Pod %s is up and running\n" [Arg.str "tele"],
              Event.start ["kubectl", "port-forward\x27", "tele", "9876:8022"],
              Event.output ["docker", "network", "inspect", "bridge",
                "--format=\x7b\x7bjson .IPAM.Config\x7d\x7d"],
              Event.println [Arg.str "IP for docker0:", Arg.str "172.17.0.1"],
              Event.start ["socat", "TCP4-LISTEN:9876,bind=172.17.0.1,reuseaddr,fork",
                "TCP4:127.0.0.1:9876"],
              Event.output ["kubectl", "exec", "tele", "env"],
              Event.kill ["kubectl", "port-forward\x27", "tele", "9876:8022"],
              Event.println [Arg.str "socat closed closed"],
              Event.kill ["kubectl", "port-forward\x27", "tele", "9876:8022"],
              Event.println [Arg.str "Port forward closed"],
              Event.println [Arg.str "Deleting deployment"],
              Event.output ["kubectl", "delete", "-f", "tele.yaml"],
              Event.println [Arg.str "Exited succesfully"]] ∧
      main 3 missingListEnv ≠
        some (deployTrace "minikube\n" ++
          [Event.output getPodCmd,
           Event.output getPodCmd,
           Event.printf "Invalid amount of pods %d, expecting 1\n" [Arg.int 0]] ++
          deleteDeployment missingListEnv) := by
  refine ⟨?_, rfl, by decide, by decide⟩
  intro env k hk hdoc
  obtain ⟨d, hd, hlen, hph⟩ := (continuesAt_iff env k).1 hk
  refine (continuesAt_iff env (k + 1)).2 ⟨_, hdoc, ?_, ?_⟩
  · rw [podAt_succ_doc env k d hd]
    exact hlen
  · rw [podAt_succ_doc env k d hd]
    exact hph

end Telepresence
